import Mathlib

/-!
Verification of the expense-tracking application (`app.py`, `models.py`).

Amounts are modelled as rationals (`ℚ`); calendar dates as
year/month/day triples ordered lexicographically, which coincides with
Python `datetime.date` ordering on valid dates.
-/

/-- Calendar date, mirroring Python `datetime.date` (year, month, day). -/
structure Date where
  year : Nat
  month : Nat
  day : Nat
deriving DecidableEq, Repr

namespace Date

/-- Date comparison: lexicographic on (year, month, day), matching
`datetime.date` ordering for valid dates. -/
def le (a b : Date) : Prop :=
  a.year < b.year ∨ (a.year = b.year ∧
    (a.month < b.month ∨ (a.month = b.month ∧ a.day ≤ b.day)))

/-- Strict date comparison. -/
def lt (a b : Date) : Prop :=
  a.year < b.year ∨ (a.year = b.year ∧
    (a.month < b.month ∨ (a.month = b.month ∧ a.day < b.day)))

instance : LE Date := ⟨Date.le⟩

instance : LT Date := ⟨Date.lt⟩

instance decLe (a b : Date) : Decidable (a ≤ b) :=
  inferInstanceAs (Decidable (_ ∨ _))

instance decLt (a b : Date) : Decidable (a < b) :=
  inferInstanceAs (Decidable (_ ∨ _))

/-- `d.replace(day=1)` as used in the handlers: first day of the month of `d`. -/
def firstOfMonth (d : Date) : Date := ⟨d.year, d.month, 1⟩

end Date

/-- Budget status classification, as computed in `monthly_report`
(`app.py` lines 361-366) and flashed by `create_expense` (lines 268-278). -/
inductive Status where
  | exceeded
  | nearLimit
  | ok
deriving DecidableEq, Repr

/-- `BudgetStatus`: embedding of the classification in `monthly_report`
(`app.py` lines 359-366): `remaining = budget_amount - spent`; `remaining < 0`
gives `exceeded`; else `budget_amount > 0 and remaining <= 0.1 * budget_amount`
gives `near_limit`; otherwise `ok`. The same comparisons drive the flashes in
`create_expense` (lines 266-278). -/
def budgetStatus (spent budgetAmount : ℚ) : Status :=
  if budgetAmount - spent < 0 then .exceeded
  else if budgetAmount > 0 ∧ budgetAmount - spent ≤ (1 / 10) * budgetAmount then .nearLimit
  else .ok

/-- `_next_month` (`app.py` lines 387-393): first day of the month after the
month containing `d`; December wraps to January of the next year. -/
def nextMonth (d : Date) : Date :=
  if d.month = 12 then ⟨d.year + 1, 1, 1⟩
  else ⟨d.year, d.month + 1, 1⟩

/-- `models.User` (`models.py` lines 6-20): `id` primary key, required `name`,
optional `email`. -/
structure User where
  id : Nat
  name : String
  email : Option String
deriving DecidableEq, Repr

/-- `models.Category` (`models.py` lines 23-34): `id`, `name`, owning `user_id`. -/
structure Category where
  id : Nat
  name : String
  user_id : Nat
deriving DecidableEq, Repr

/-- `models.Budget` (`models.py` lines 37-50): monthly budget row for a user
and category; `month` stores the first day of the month. The autoincrement
`id` column plays no role in the handlers and is not modelled. -/
structure Budget where
  user_id : Nat
  category_id : Nat
  month : Date
  amount : ℚ
deriving DecidableEq, Repr

/-- `models.Expense` (`models.py` lines 53-65): a single expense entry. The
autoincrement `id` column plays no role in the handlers and is not modelled. -/
structure Expense where
  user_id : Nat
  category_id : Nat
  date : Date
  amount : ℚ
  description : Option String
deriving DecidableEq, Repr

/-- The row filter of the spend queries in `monthly_report` (`app.py` lines
327-336 with no category filter, 343-353 with one) and `create_expense`
(lines 254-261): same user, optionally same category, and
`month_start <= date < next_month(month_start)`. -/
def expenseInMonth (uid : Nat) (cid : Option Nat) (monthStart : Date)
    (e : Expense) : Bool :=
  decide (e.user_id = uid) &&
    (match cid with
      | none => true
      | some c => decide (e.category_id = c)) &&
    decide (monthStart ≤ e.date) && decide (e.date < nextMonth monthStart)

/-- SQL `SUM(amount)` over a set of rows: `NULL` (here `none`) when the set is
empty, otherwise the arithmetic sum. -/
def sqlSumAmount (l : List ℚ) : Option ℚ :=
  match l with
  | [] => none
  | _ => some l.sum

/-- `MonthlySpend`: embedding of
`db.session.query(db.func.sum(Expense.amount)).filter(...).scalar() or 0.0`
(`app.py` lines 327-336, 343-353, 254-264): the SQL sum of the matching
expenses' amounts, with `None` coerced to `0.0`. -/
def monthlySpend (expenses : List Expense) (uid : Nat) (cid : Option Nat)
    (monthStart : Date) : ℚ :=
  (sqlSumAmount ((expenses.filter (expenseInMonth uid cid monthStart)).map
    Expense.amount)).getD 0

/-- The lookup filter `Budget.query.filter_by(user_id=..., category_id=...,
month=...)` used by `manage_budgets` (`app.py` lines 165-167) and
`create_expense` (lines 249-251). -/
def budgetKeyMatch (uid cid : Nat) (m : Date) (b : Budget) : Bool :=
  decide (b.user_id = uid) && decide (b.category_id = cid) && decide (b.month = m)

/-- One `UpsertBudget` step (`app.py` lines 165-179): take the first Budget
row for (user, category, month) and overwrite its amount, or insert a fresh
row when none exists. -/
def upsertBudget (uid cid : Nat) (m : Date) (amt : ℚ) :
    List Budget → List Budget
  | [] => [⟨uid, cid, m, amt⟩]
  | b :: rest =>
    if budgetKeyMatch uid cid m b then { b with amount := amt } :: rest
    else b :: upsertBudget uid cid m amt rest

/-- Number of Budget rows stored for a given (user, category, month) triple. -/
def countKey (uid cid : Nat) (m : Date) (bs : List Budget) : Nat :=
  (bs.filter (budgetKeyMatch uid cid m)).length

/-- A sequence of `UpsertBudget` operations (each given as
(user, category, month, amount)) applied in order. -/
def applyUpserts (ops : List (Nat × Nat × Date × ℚ)) (bs : List Budget) :
    List Budget :=
  ops.foldl (fun acc op => upsertBudget op.1 op.2.1 op.2.2.1 op.2.2.2 acc) bs

/-- The four tables of the entity store (`models.py`). -/
structure AppState where
  users : List User
  categories : List Category
  budgets : List Budget
  expenses : List Expense
deriving DecidableEq, Repr

/-- `delete_user` (`app.py` lines 81-98): 404 when the user does not exist;
otherwise delete the user's Expenses, Budgets and Categories (lines 90-92),
then the User row itself (line 94), and commit once (line 95). -/
def deleteUser (s : AppState) (uid : Nat) : Option AppState :=
  if s.users.any (fun u => decide (u.id = uid)) then
    some
      { users := s.users.filter (fun u => !decide (u.id = uid)),
        categories := s.categories.filter (fun c => !decide (c.user_id = uid)),
        budgets := s.budgets.filter (fun b => !decide (b.user_id = uid)),
        expenses := s.expenses.filter (fun e => !decide (e.user_id = uid)) }
  else none

/-- Flash severities used by the handlers: `"error"`, `"warning"`, `"info"`,
`"success"`. -/
inductive Sev where
  | error
  | warning
  | info
  | success
deriving DecidableEq, Repr

/-- The flash messages of `create_expense` (`app.py` lines 220, 226, 233,
269-272, 274-278, 280). The interpolated text (category name, formatted
amounts) is abstracted; each constructor stands for one `flash(...)` call
site. -/
inductive Msg where
  | amountError
  | dateError
  | categoryError
  | budgetExceededWarning
  | nearLimitInfo
  | expenseRecorded
deriving DecidableEq, Repr

/-- Severity tag passed to `flash` for each message. -/
def msgSev : Msg → Sev
  | .amountError => .error
  | .dateError => .error
  | .categoryError => .error
  | .budgetExceededWarning => .warning
  | .nearLimitInfo => .info
  | .expenseRecorded => .success

/-- Gregorian leap-year rule, as implemented by `datetime`. -/
def isLeapYear (y : Nat) : Bool :=
  (y % 4 = 0 && y % 100 ≠ 0) || y % 400 = 0

/-- Days in a month of the proleptic Gregorian calendar (`datetime`). -/
def daysInMonth (y m : Nat) : Nat :=
  if m = 2 then (if isLeapYear y then 29 else 28)
  else if m = 4 ∨ m = 6 ∨ m = 9 ∨ m = 11 then 30
  else 31

/-- Validity of a calendar date as enforced by
`datetime.strptime(date_str, "%Y-%m-%d")` (`app.py` line 224): year in
1..9999, month in 1..12, day within the month. -/
def isValidDate (y m d : Nat) : Bool :=
  decide (1 ≤ y) && decide (y ≤ 9999) && decide (1 ≤ m) && decide (m ≤ 12) &&
    decide (1 ≤ d) && decide (d ≤ daysInMonth y m)

/-- Outcome of a `create_expense` POST: resulting store, flashed messages in
order, and whether the expense was recorded. -/
structure CreateOutcome where
  state : AppState
  msgs : List Msg
  ok : Bool
deriving DecidableEq, Repr

/-- `create_expense` POST body (`app.py` lines 209-281), for an existing user
(`get_or_404` on line 206 aborts earlier otherwise). Form fields are modelled
after parsing: `amountField` is the result of `float(amount_raw)` (`none` when
`float` raises), `dateField` is the year/month/day digit triple of a
`"YYYY-MM-DD"`-shaped string (`none` when the string has no such shape;
calendar validity is checked via `isValidDate`), `category_id` is the raw
category field. Checks run in source order: amount (positive number), date,
category owned by the user; any failure flashes an error and leaves the store
untouched. On success the expense is committed, then — only if a Budget row
exists for (user, category, month of date) — the spend for that category and
month (including the new row) is summed and an exceeded/near-limit alert is
flashed, followed by the success flash. -/
def createExpense (s : AppState) (uid : Nat) (category_id : Option Nat)
    (amountField : Option ℚ) (dateField : Option (Nat × Nat × Nat))
    (description : Option String) : CreateOutcome :=
  match amountField with
  | none => ⟨s, [.amountError], false⟩
  | some amount =>
    if amount ≤ 0 then ⟨s, [.amountError], false⟩
    else
      match dateField with
      | none => ⟨s, [.dateError], false⟩
      | some (y, mo, d) =>
        if isValidDate y mo d then
          match s.categories.find?
              (fun c => decide (category_id = some c.id) && decide (c.user_id = uid)) with
          | none => ⟨s, [.categoryError], false⟩
          | some category =>
            ⟨{ s with expenses :=
                s.expenses ++ [⟨uid, category.id, ⟨y, mo, d⟩, amount, description⟩] },
             (match s.budgets.find?
                 (budgetKeyMatch uid category.id (Date.firstOfMonth ⟨y, mo, d⟩)) with
              | none => []
              | some budget =>
                if budget.amount -
                    monthlySpend
                      (s.expenses ++ [⟨uid, category.id, ⟨y, mo, d⟩, amount, description⟩])
                      uid (some category.id) (Date.firstOfMonth ⟨y, mo, d⟩) < 0 then
                  [Msg.budgetExceededWarning]
                else if budget.amount > 0 ∧
                    budget.amount -
                      monthlySpend
                        (s.expenses ++ [⟨uid, category.id, ⟨y, mo, d⟩, amount, description⟩])
                        uid (some category.id) (Date.firstOfMonth ⟨y, mo, d⟩) ≤
                      (1 / 10) * budget.amount then
                  [Msg.nearLimitInfo]
                else []) ++ [.expenseRecorded],
             true⟩
        else ⟨s, [.dateError], false⟩

/-- Spec-side rendering of a §4.2 status as the alert `create_expense`
reports: a warning for EXCEEDED, an info for NEAR_LIMIT, nothing for OK. -/
def statusAlerts : Status → List Msg
  | .exceeded => [.budgetExceededWarning]
  | .nearLimit => [.nearLimitInfo]
  | .ok => []

/-- One submitted per-category budget form field in a `manage_budgets` POST
(`app.py` lines 152-160): absent or whitespace-only (`blank`), not parseable
by `float(...)` (`malformed`), or a parsed numeric value. -/
inductive FieldInput where
  | blank
  | malformed
  | amount (q : ℚ)
deriving DecidableEq, Repr

/-- The per-category loop of the `manage_budgets` POST handler (`app.py`
lines 151-181): blank fields are skipped silently (lines 154-155); a field
failing `float(...)` or parsing negative flashes a per-category validation
error and is skipped (lines 157-163); otherwise the amount is upserted for
(user, category, month) (lines 165-179). The batch is committed once at the
end (line 181). Takes the submitted (category id, field) pairs in order and
returns the final Budget table together with the category ids flagged with a
validation error. -/
def processBudgetForm (uid : Nat) (m : Date) :
    List (Nat × FieldInput) → List Budget → List Budget × List Nat
  | [], bs => (bs, [])
  | (cid, inp) :: rest, bs =>
    match inp with
    | .blank => processBudgetForm uid m rest bs
    | .malformed =>
      ((processBudgetForm uid m rest bs).1, cid :: (processBudgetForm uid m rest bs).2)
    | .amount q =>
      if q < 0 then
        ((processBudgetForm uid m rest bs).1, cid :: (processBudgetForm uid m rest bs).2)
      else processBudgetForm uid m rest (upsertBudget uid cid m q bs)

/-- `list_expenses` (`app.py` lines 288-299): the user's expenses ordered by
date descending (`order_by(Expense.date.desc())`; SQL leaves the relative
order of equal dates unspecified, modelled by a merge sort on the
date-descending comparator) truncated to the first 50 rows (`limit(50)`). -/
def listExpenses (expenses : List Expense) (uid : Nat) : List Expense :=
  ((expenses.filter fun e => decide (e.user_id = uid)).mergeSort
    fun a b => decide (b.date ≤ a.date)).take 50

/-- Split a character list at every `-`, keeping empty groups (the group
structure `"%Y-%m"` matches against). -/
def splitDash : List Char → List (List Char)
  | [] => [[]]
  | c :: rest =>
    if c = '-' then [] :: splitDash rest
    else
      match splitDash rest with
      | [] => [[c]]
      | g :: gs => (c :: g) :: gs

/-- Decimal value of a digit run; `none` on any non-digit. -/
def digitsValAux : List Char → Nat → Option Nat
  | [], acc => some acc
  | c :: rest, acc =>
    if c.isDigit then digitsValAux rest (acc * 10 + (c.toNat - 48)) else none

/-- Decimal value of a non-empty all-digit character list. -/
def digitsVal : List Char → Option Nat
  | [] => none
  | cs => digitsValAux cs 0

/-- Embedding of `datetime.strptime(month_str, "%Y-%m").date()` as used at
`app.py` lines 137 and 318: the string must be `YEAR-MONTH` where the year is
exactly 4 digits (CPython's `%Y` matches the regex `\d\d\d\d`, and `datetime`
additionally requires year ≥ 1, so `"0000"` and 1-3 digit years raise) and
the month is 1-2 digits with value in 1..12; the day defaults to 1. Any other
string raises `ValueError` (`none` here). -/
def parseMonth (s : String) : Option Date :=
  match splitDash s.data with
  | [ys, ms] =>
    if ys.length = 4 ∧ 1 ≤ ms.length ∧ ms.length ≤ 2 then
      match digitsVal ys, digitsVal ms with
      | some y, some mo =>
        if 1 ≤ y ∧ 1 ≤ mo ∧ mo ≤ 12 then some ⟨y, mo, 1⟩ else none
      | _, _ => none
    else none
  | _ => none

/-- Month selection of the `monthly_report` GET handler (`app.py` lines
315-322): an absent or empty `month` query parameter, or one that fails to
parse as `"%Y-%m"`, silently falls back to the first day of the current
month; no message is flashed on this path. Returns the chosen month and the
flashed messages. -/
def monthlyReportMonth (monthArg : Option String) (today : Date) :
    Date × List Msg :=
  match monthArg with
  | none => (Date.firstOfMonth today, [])
  | some str =>
    if str = "" then (Date.firstOfMonth today, [])
    else
      match parseMonth str with
      | some d => (d, [])
      | none => (Date.firstOfMonth today, [])

/-- Month selection of the `manage_budgets` GET page (`app.py` lines
134-141), duplicating the logic of `monthly_report`: unparseable or missing
`month` silently falls back to the first day of the current month with no
flash. -/
def budgetsPageMonth (monthArg : Option String) (today : Date) :
    Date × List Msg :=
  match monthArg with
  | none => (Date.firstOfMonth today, [])
  | some str =>
    if str = "" then (Date.firstOfMonth today, [])
    else
      match parseMonth str with
      | some d => (d, [])
      | none => (Date.firstOfMonth today, [])

/-- C1: `budgetStatus` yields EXCEEDED exactly when `remaining < 0`, NEAR_LIMIT
exactly when remaining is non-negative but the budget is positive and at most
10% of it remains (EXCEEDED is checked first), and OK otherwise; in particular
a zero budget with zero spend is OK. -/
theorem C1_budget_status_classification (spent budgetAmount : ℚ) :
    (budgetStatus spent budgetAmount = .exceeded ↔ budgetAmount - spent < 0) ∧
    (budgetStatus spent budgetAmount = .nearLimit ↔
      (0 ≤ budgetAmount - spent ∧ 0 < budgetAmount ∧
        budgetAmount - spent ≤ (1 / 10) * budgetAmount)) ∧
    (budgetStatus spent budgetAmount = .ok ↔
      (0 ≤ budgetAmount - spent ∧
        ¬(0 < budgetAmount ∧ budgetAmount - spent ≤ (1 / 10) * budgetAmount))) ∧
    budgetStatus 0 0 = .ok := by
  refine ⟨?_, ?_, ?_, by norm_num [budgetStatus]⟩
  · unfold budgetStatus
    split_ifs with h1 h2
    · exact iff_of_true rfl h1
    · exact iff_of_false (by simp) h1
    · exact iff_of_false (by simp) h1
  · unfold budgetStatus
    split_ifs with h1 h2
    · refine iff_of_false (by simp) ?_
      rintro ⟨ha, -, -⟩
      linarith
    · exact iff_of_true rfl ⟨not_lt.mp h1, h2.1, h2.2⟩
    · refine iff_of_false (by simp) ?_
      rintro ⟨-, hb, hc⟩
      exact h2 ⟨hb, hc⟩
  · unfold budgetStatus
    split_ifs with h1 h2
    · refine iff_of_false (by simp) ?_
      rintro ⟨ha, -⟩
      linarith
    · refine iff_of_false (by simp) ?_
      rintro ⟨-, hcon⟩
      exact hcon h2
    · exact iff_of_true rfl ⟨not_lt.mp h1, h2⟩

/-- C3: applying `nextMonth` twelve times to the first day of any calendar
month advances it exactly one year; `nextMonth` of December of year Y is
January 1 of year Y+1. -/
theorem C3_next_month_year_cycle (m : Date)
    (hm : 1 ≤ m.month ∧ m.month ≤ 12 ∧ m.day = 1) :
    nextMonth^[12] m = ⟨m.year + 1, m.month, 1⟩ ∧
    (∀ y : Nat, nextMonth ⟨y, 12, 1⟩ = ⟨y + 1, 1, 1⟩) := by
  obtain ⟨y, mo, d⟩ := m
  obtain ⟨h1, h2, h3⟩ := hm
  subst h3
  refine ⟨?_, fun y => by simp [nextMonth]⟩
  interval_cases mo <;>
    simp [Function.iterate_succ_apply, nextMonth]

/-- Witness for C3 at March 2024. -/
theorem C3_next_month_year_cycle_witness :
    nextMonth^[12] ⟨2024, 3, 1⟩ = ⟨2025, 3, 1⟩ ∧
    (∀ y : Nat, nextMonth ⟨y, 12, 1⟩ = ⟨y + 1, 1, 1⟩) :=
  C3_next_month_year_cycle ⟨2024, 3, 1⟩ (by norm_num)

theorem budgetKeyMatch_iff (uid cid : Nat) (m : Date) (b : Budget) :
    budgetKeyMatch uid cid m b = true ↔
      b.user_id = uid ∧ b.category_id = cid ∧ b.month = m := by
  simp [budgetKeyMatch, and_assoc]

theorem budgetKeyMatch_amount (uid cid : Nat) (m : Date) (b : Budget) (a : ℚ) :
    budgetKeyMatch uid cid m { b with amount := a } = budgetKeyMatch uid cid m b :=
  rfl

theorem countKey_cons (uid cid : Nat) (m : Date) (b : Budget) (rest : List Budget) :
    countKey uid cid m (b :: rest) =
      (if budgetKeyMatch uid cid m b then 1 else 0) + countKey uid cid m rest := by
  unfold countKey
  rw [List.filter_cons]
  split_ifs <;> simp [List.length_cons] <;> omega

theorem countKey_upsert_ne (u c : Nat) (mm : Date) (a : ℚ) (u' c' : Nat)
    (m' : Date) (hne : ¬(u = u' ∧ c = c' ∧ mm = m')) (bs : List Budget) :
    countKey u' c' m' (upsertBudget u c mm a bs) = countKey u' c' m' bs := by
  induction bs with
  | nil =>
    have hfresh : budgetKeyMatch u' c' m' ⟨u, c, mm, a⟩ = false := by
      simp [budgetKeyMatch]
      exact fun h1 h2 h3 => hne ⟨h1, h2, h3⟩
    simp [upsertBudget, countKey, List.filter_cons, hfresh]
  | cons b rest ih =>
    unfold upsertBudget
    split_ifs with hb
    · rw [countKey_cons, countKey_cons, budgetKeyMatch_amount]
    · rw [countKey_cons, ih, countKey_cons]

theorem countKey_upsert_self (u c : Nat) (mm : Date) (a : ℚ) (bs : List Budget) :
    countKey u c mm (upsertBudget u c mm a bs) = max (countKey u c mm bs) 1 := by
  induction bs with
  | nil =>
    simp [upsertBudget, countKey, List.filter_cons, budgetKeyMatch]
  | cons b rest ih =>
    unfold upsertBudget
    split_ifs with hb
    · simp [countKey_cons, budgetKeyMatch_amount, hb]
    · have hb' : budgetKeyMatch u c mm b = false := by simpa using hb
      simp [countKey_cons, hb', ih]

theorem filter_upsert_eq (u c : Nat) (mm : Date) (a : ℚ) (bs : List Budget) :
    countKey u c mm bs ≤ 1 →
    (upsertBudget u c mm a bs).filter (budgetKeyMatch u c mm) = [⟨u, c, mm, a⟩] := by
  induction bs with
  | nil =>
    intro h
    simp [upsertBudget, List.filter_cons, budgetKeyMatch]
  | cons b rest ih =>
    intro h
    unfold upsertBudget
    split_ifs with hb
    · have hkey := (budgetKeyMatch_iff u c mm b).mp hb
      have hbe : ({ b with amount := a } : Budget) = ⟨u, c, mm, a⟩ := by
        obtain ⟨bu, bc, bm, ba⟩ := b
        simp only at hkey
        obtain ⟨h1, h2, h3⟩ := hkey
        subst h1; subst h2; subst h3
        rfl
      have hrest : countKey u c mm rest = 0 := by
        rw [countKey_cons, hb] at h
        simp at h
        omega
      have hfil : rest.filter (budgetKeyMatch u c mm) = [] := by
        unfold countKey at hrest
        exact List.length_eq_zero.mp hrest
      rw [List.filter_cons, hbe]
      simp [budgetKeyMatch, hfil]
    · have hb' : budgetKeyMatch u c mm b = false := by simpa using hb
      have hrest : countKey u c mm rest ≤ 1 := by
        rw [countKey_cons, hb'] at h
        simpa using h
      rw [List.filter_cons]
      simp [hb']
      exact ih hrest

/-- C2: `monthlySpend` equals the arithmetic sum of the amounts of exactly the
matching expenses (same user, same category when a filter is given, date in
`[month, nextMonth month)`), and is exactly 0 when no expense matches. -/
theorem C2_monthly_spend_sum (expenses : List Expense) (uid : Nat)
    (cid : Option Nat) (m : Date) :
    monthlySpend expenses uid cid m =
      ((expenses.filter (expenseInMonth uid cid m)).map Expense.amount).sum ∧
    (expenses.filter (expenseInMonth uid cid m) = [] →
      monthlySpend expenses uid cid m = 0) ∧
    (∀ e : Expense, expenseInMonth uid cid m e = true ↔
      (e.user_id = uid ∧ (∀ c : Nat, cid = some c → e.category_id = c) ∧
        m ≤ e.date ∧ e.date < nextMonth m)) := by
  refine ⟨?_, ?_, ?_⟩
  · unfold monthlySpend
    cases hf : expenses.filter (expenseInMonth uid cid m) with
    | nil => simp [hf, sqlSumAmount]
    | cons x xs => simp [hf, sqlSumAmount]
  · intro hf
    unfold monthlySpend
    simp [hf, sqlSumAmount]
  · intro e
    cases cid with
    | none => simp [expenseInMonth]; tauto
    | some c0 => simp [expenseInMonth]; tauto

/-- Witness for C2: no expenses at all gives a spend of exactly 0. -/
theorem C2_monthly_spend_sum_witness : monthlySpend [] 1 none ⟨2024, 5, 1⟩ = 0 :=
  (C2_monthly_spend_sum [] 1 none ⟨2024, 5, 1⟩).2.1 rfl

/-- C4: starting from a store with at most one Budget row for the triple,
upserting twice with different amounts leaves exactly one row for the triple,
holding the latest amount; and every sequence of upsert operations preserves
the at-most-one-row-per-triple invariant. -/
theorem C4_upsert_budget (bs : List Budget) (uid cid : Nat) (m : Date)
    (amt1 amt2 : ℚ) (hinv : countKey uid cid m bs ≤ 1) (hne : amt1 ≠ amt2) :
    (upsertBudget uid cid m amt2 (upsertBudget uid cid m amt1 bs)).filter
        (budgetKeyMatch uid cid m) = [⟨uid, cid, m, amt2⟩] ∧
    (∀ (ops : List (Nat × Nat × Date × ℚ)) (bs0 : List Budget),
      (∀ (u c : Nat) (mm : Date), countKey u c mm bs0 ≤ 1) →
      ∀ (u c : Nat) (mm : Date), countKey u c mm (applyUpserts ops bs0) ≤ 1) := by
  constructor
  · apply filter_upsert_eq
    rw [countKey_upsert_self]
    exact max_le hinv le_rfl
  · intro ops
    induction ops with
    | nil =>
      intro bs0 h u c mm
      simpa [applyUpserts] using h u c mm
    | cons op rest ih =>
      intro bs0 h u c mm
      have hstep : ∀ (u' c' : Nat) (mm' : Date),
          countKey u' c' mm' (upsertBudget op.1 op.2.1 op.2.2.1 op.2.2.2 bs0) ≤ 1 := by
        intro u' c' mm'
        by_cases hk : op.1 = u' ∧ op.2.1 = c' ∧ op.2.2.1 = mm'
        · obtain ⟨h1, h2, h3⟩ := hk
          subst h1; subst h2; subst h3
          rw [countKey_upsert_self]
          exact max_le (h _ _ _) le_rfl
        · rw [countKey_upsert_ne _ _ _ _ _ _ _ hk]
          exact h u' c' mm'
      have hfold : applyUpserts (op :: rest) bs0 =
          applyUpserts rest (upsertBudget op.1 op.2.1 op.2.2.1 op.2.2.2 bs0) := rfl
      rw [hfold]
      exact ih _ hstep u c mm

/-- Witness for C4: two upserts into an empty store keep one row, amount 20. -/
theorem C4_upsert_budget_witness :
    (upsertBudget 1 2 ⟨2024, 5, 1⟩ 20 (upsertBudget 1 2 ⟨2024, 5, 1⟩ 10 [])).filter
        (budgetKeyMatch 1 2 ⟨2024, 5, 1⟩) = [⟨1, 2, ⟨2024, 5, 1⟩, 20⟩] :=
  (C4_upsert_budget [] 1 2 ⟨2024, 5, 1⟩ 10 20 (by simp [countKey]) (by norm_num)).1

theorem filter_key_erase {α : Type} (key : α → Nat) (uid : Nat) (l : List α) :
    ((l.filter fun a => !decide (key a = uid)).filter fun a => decide (key a = uid)) = [] ∧
    ∀ v : Nat, v ≠ uid →
      ((l.filter fun a => !decide (key a = uid)).filter fun a => decide (key a = v)) =
        l.filter fun a => decide (key a = v) := by
  constructor
  · refine List.filter_eq_nil_iff.mpr ?_
    intro a ha
    have hmem := (List.mem_filter.mp ha).2
    simp at hmem ⊢
    exact hmem
  · intro v hv
    rw [List.filter_filter]
    apply List.filter_congr
    intro a _
    by_cases h : key a = v
    · simp [h, hv]
    · simp [h]

/-- C5: deleting an existing user succeeds and removes all of that user's
Expenses, Budgets, Categories and the User row (queries for them return
empty), while every other user's rows are untouched. The whole deletion is a
single state transformation (committed once, `app.py` line 95), so no partial
application is observable. -/
theorem C5_delete_user_cascade (s : AppState) (u : User) (hu : u ∈ s.users) :
    ∃ s', deleteUser s u.id = some s' ∧
      (s'.users.filter fun w => decide (w.id = u.id)) = [] ∧
      (s'.categories.filter fun c => decide (c.user_id = u.id)) = [] ∧
      (s'.budgets.filter fun b => decide (b.user_id = u.id)) = [] ∧
      (s'.expenses.filter fun e => decide (e.user_id = u.id)) = [] ∧
      ∀ v : Nat, v ≠ u.id →
        (s'.users.filter fun w => decide (w.id = v)) =
          (s.users.filter fun w => decide (w.id = v)) ∧
        (s'.categories.filter fun c => decide (c.user_id = v)) =
          (s.categories.filter fun c => decide (c.user_id = v)) ∧
        (s'.budgets.filter fun b => decide (b.user_id = v)) =
          (s.budgets.filter fun b => decide (b.user_id = v)) ∧
        (s'.expenses.filter fun e => decide (e.user_id = v)) =
          (s.expenses.filter fun e => decide (e.user_id = v)) := by
  have hex : s.users.any (fun w => decide (w.id = u.id)) = true :=
    List.any_eq_true.mpr ⟨u, hu, by simp⟩
  unfold deleteUser
  rw [if_pos hex]
  refine ⟨_, rfl, ?_, ?_, ?_, ?_, ?_⟩
  · exact (filter_key_erase User.id u.id s.users).1
  · exact (filter_key_erase Category.user_id u.id s.categories).1
  · exact (filter_key_erase Budget.user_id u.id s.budgets).1
  · exact (filter_key_erase Expense.user_id u.id s.expenses).1
  · intro v hv
    exact ⟨(filter_key_erase User.id u.id s.users).2 v hv,
      (filter_key_erase Category.user_id u.id s.categories).2 v hv,
      (filter_key_erase Budget.user_id u.id s.budgets).2 v hv,
      (filter_key_erase Expense.user_id u.id s.expenses).2 v hv⟩

/-- Witness for C5 on a two-user store. -/
theorem C5_delete_user_cascade_witness :
    ∃ s', deleteUser
        ⟨[⟨1, "A", none⟩, ⟨2, "B", none⟩],
         [⟨7, "Food", 1⟩, ⟨8, "Food", 2⟩],
         [⟨1, 7, ⟨2024, 5, 1⟩, 100⟩],
         [⟨1, 7, ⟨2024, 5, 10⟩, 20, none⟩, ⟨2, 8, ⟨2024, 5, 11⟩, 30, none⟩]⟩ 1 = some s' ∧
      (s'.users.filter fun w => decide (w.id = 1)) = [] ∧
      (s'.categories.filter fun c => decide (c.user_id = 1)) = [] ∧
      (s'.budgets.filter fun b => decide (b.user_id = 1)) = [] ∧
      (s'.expenses.filter fun e => decide (e.user_id = 1)) = [] ∧
      ∀ v : Nat, v ≠ 1 →
        (s'.users.filter fun w => decide (w.id = v)) =
          ([⟨1, "A", none⟩, ⟨2, "B", none⟩].filter fun w : User => decide (w.id = v)) ∧
        (s'.categories.filter fun c => decide (c.user_id = v)) =
          ([⟨7, "Food", 1⟩, ⟨8, "Food", 2⟩].filter fun c : Category => decide (c.user_id = v)) ∧
        (s'.budgets.filter fun b => decide (b.user_id = v)) =
          ([⟨1, 7, ⟨2024, 5, 1⟩, 100⟩].filter fun b : Budget => decide (b.user_id = v)) ∧
        (s'.expenses.filter fun e => decide (e.user_id = v)) =
          ([⟨1, 7, ⟨2024, 5, 10⟩, 20, none⟩, ⟨2, 8, ⟨2024, 5, 11⟩, 30, none⟩].filter
            fun e : Expense => decide (e.user_id = v)) :=
  C5_delete_user_cascade _ ⟨1, "A", none⟩ (List.Mem.head _)

theorem alerts_eq_statusAlerts (spent bAmt : ℚ) :
    (if bAmt - spent < 0 then [Msg.budgetExceededWarning]
     else if bAmt > 0 ∧ bAmt - spent ≤ (1 / 10) * bAmt then [Msg.nearLimitInfo]
     else []) = statusAlerts (budgetStatus spent bAmt) := by
  unfold budgetStatus statusAlerts
  split_ifs <;> rfl

theorem createExpense_not_ok (s : AppState) (uid : Nat) (cid : Option Nat)
    (amt : Option ℚ) (df : Option (Nat × Nat × Nat)) (desc : Option String)
    (h : (createExpense s uid cid amt df desc).ok = false) :
    (createExpense s uid cid amt df desc).state = s ∧
    ∃ msg ∈ (createExpense s uid cid amt df desc).msgs, msgSev msg = .error := by
  cases amt with
  | none =>
    simp only [createExpense] at h ⊢
    exact ⟨by trivial, ⟨.amountError, by simp, rfl⟩⟩
  | some a =>
    cases df with
    | none =>
      simp only [createExpense] at h ⊢
      by_cases ha : a ≤ 0
      · rw [if_pos ha]
        exact ⟨by trivial, ⟨.amountError, by simp, rfl⟩⟩
      · rw [if_neg ha]
        exact ⟨by trivial, ⟨.dateError, by simp, rfl⟩⟩
    | some t =>
      obtain ⟨y, mo, d⟩ := t
      simp only [createExpense] at h ⊢
      by_cases ha : a ≤ 0
      · rw [if_pos ha]
        exact ⟨by trivial, ⟨.amountError, by simp, rfl⟩⟩
      · rw [if_neg ha] at h ⊢
        by_cases hv : isValidDate y mo d = true
        · rw [if_pos hv] at h ⊢
          cases hf : s.categories.find?
              (fun c => decide (cid = some c.id) && decide (c.user_id = uid)) with
          | none =>
            exact ⟨by trivial, ⟨.categoryError, by simp, rfl⟩⟩
          | some c =>
            rw [hf] at h
            simp at h
        · rw [if_neg hv] at h ⊢
          exact ⟨by trivial, ⟨.dateError, by simp, rfl⟩⟩

theorem createExpense_ok_iff (s : AppState) (uid : Nat) (cid : Option Nat)
    (amt : Option ℚ) (df : Option (Nat × Nat × Nat)) (desc : Option String) :
    (createExpense s uid cid amt df desc).ok = true ↔
      ((∃ a : ℚ, amt = some a ∧ 0 < a) ∧
       (∃ y mo d : Nat, df = some (y, mo, d) ∧ isValidDate y mo d = true) ∧
       (∃ c ∈ s.categories, cid = some c.id ∧ c.user_id = uid)) := by
  cases amt with
  | none =>
    simp [createExpense]
  | some a =>
    cases df with
    | none =>
      simp only [createExpense]
      by_cases ha : a ≤ 0
      · rw [if_pos ha]
        refine iff_of_false (by simp) ?_
        rintro ⟨⟨a', ha', hpos⟩, -, -⟩
        obtain rfl : a = a' := Option.some.inj ha'
        linarith
      · rw [if_neg ha]
        refine iff_of_false (by simp) ?_
        rintro ⟨-, ⟨y', mo', d', hdf, -⟩, -⟩
        cases hdf
    | some t =>
      obtain ⟨y, mo, d⟩ := t
      simp only [createExpense]
      by_cases ha : a ≤ 0
      · rw [if_pos ha]
        refine iff_of_false (by simp) ?_
        rintro ⟨⟨a', ha', hpos⟩, -, -⟩
        obtain rfl : a = a' := Option.some.inj ha'
        linarith
      · rw [if_neg ha]
        by_cases hv : isValidDate y mo d = true
        · rw [if_pos hv]
          cases hf : s.categories.find?
              (fun c => decide (cid = some c.id) && decide (c.user_id = uid)) with
          | none =>
            refine iff_of_false (by simp) ?_
            rintro ⟨-, -, ⟨c, hc, hcid, huid⟩⟩
            have := List.find?_eq_none.mp hf c hc
            simp [hcid, huid] at this
          | some c =>
            refine iff_of_true (by simp) ?_
            refine ⟨⟨a, rfl, lt_of_not_le ha⟩, ⟨y, mo, d, rfl, hv⟩, c,
              List.mem_of_find?_eq_some hf, ?_⟩
            have := List.find?_some hf
            simpa using this
        · rw [if_neg hv]
          refine iff_of_false (by simp) ?_
          rintro ⟨-, ⟨y', mo', d', hdf, hv'⟩, -⟩
          obtain ⟨rfl, rfl, rfl⟩ : y = y' ∧ mo = mo' ∧ d = d' := by
            have := Option.some.inj hdf
            simp at this
            exact ⟨this.1, this.2.1, this.2.2⟩
          exact hv (by simp [hv'])

/-- C6: `create_expense` flashes an error and leaves the store unchanged
whenever the amount is missing/not positive, the date is not a valid calendar
date, or the category does not resolve to one owned by the user; and it
succeeds whenever the amount is positive (e.g. 0.01), the date is valid, and
the category resolves. -/
theorem C6_create_expense_validation (s : AppState) (uid : Nat)
    (cid : Option Nat) (amt : Option ℚ) (df : Option (Nat × Nat × Nat))
    (desc : Option String) :
    ((amt = none ∨ (∃ a : ℚ, amt = some a ∧ a ≤ 0) ∨ df = none ∨
      (∃ y mo d : Nat, df = some (y, mo, d) ∧ isValidDate y mo d = false) ∨
      (∀ c ∈ s.categories, ¬(cid = some c.id ∧ c.user_id = uid))) →
      (createExpense s uid cid amt df desc).state = s ∧
      (createExpense s uid cid amt df desc).ok = false ∧
      (∃ msg ∈ (createExpense s uid cid amt df desc).msgs, msgSev msg = .error)) ∧
    (∀ a : ℚ, amt = some a → 0 < a →
      (∃ y mo d : Nat, df = some (y, mo, d) ∧ isValidDate y mo d = true) →
      (∃ c ∈ s.categories, cid = some c.id ∧ c.user_id = uid) →
      (createExpense s uid cid amt df desc).ok = true) := by
  constructor
  · intro h
    have hnot : ¬((createExpense s uid cid amt df desc).ok = true) := by
      rw [createExpense_ok_iff]
      rintro ⟨⟨a, ha, hpos⟩, ⟨y, mo, d, hdf, hv⟩, ⟨c, hc, hcid, huid⟩⟩
      rcases h with h | ⟨a', ha', hle⟩ | h | ⟨y', mo', d', hdf', hv'⟩ | hcat
      · rw [h] at ha; cases ha
      · rw [ha'] at ha
        obtain rfl : a' = a := Option.some.inj ha
        linarith
      · rw [h] at hdf; cases hdf
      · rw [hdf'] at hdf
        have hinj := Option.some.inj hdf
        simp at hinj
        obtain ⟨rfl, rfl, rfl⟩ := hinj
        rw [hv] at hv'
        cases hv'
      · exact hcat c hc ⟨hcid, huid⟩
    have hok : (createExpense s uid cid amt df desc).ok = false := by
      cases hb : (createExpense s uid cid amt df desc).ok with
      | false => rfl
      | true => exact absurd hb hnot
    obtain ⟨h1, h2⟩ := createExpense_not_ok s uid cid amt df desc hok
    exact ⟨h1, hok, h2⟩
  · intro a ha hpos hdf hcat
    rw [createExpense_ok_iff]
    exact ⟨⟨a, ha, hpos⟩, hdf, hcat⟩

/-- Witness for C6: an amount of 0.01 with a valid date and an owned category
succeeds. -/
theorem C6_create_expense_validation_witness :
    (createExpense ⟨[⟨1, "A", none⟩], [⟨7, "Food", 1⟩], [], []⟩ 1 (some 7)
      (some (1 / 100)) (some (2024, 5, 10)) none).ok = true :=
  (C6_create_expense_validation ⟨[⟨1, "A", none⟩], [⟨7, "Food", 1⟩], [], []⟩ 1
      (some 7) (some (1 / 100)) (some (2024, 5, 10)) none).2
    (1 / 100) rfl (by norm_num) ⟨2024, 5, 10, rfl, by decide⟩
    ⟨⟨7, "Food", 1⟩, List.Mem.head _, rfl, rfl⟩

/-- C7: every successful `create_expense` persists the expense (appended to
the store, budgets untouched) and then reports, alongside the success
message, exactly the §4.2 status alert for the expense's category and the
month containing its date — computed from the stored budget for that month
and the monthly spend including the new expense. -/
theorem C7_success_persists_and_reports (s : AppState) (uid : Nat)
    (cid : Option Nat) (amt : Option ℚ) (df : Option (Nat × Nat × Nat))
    (desc : Option String)
    (hok : (createExpense s uid cid amt df desc).ok = true) :
    ∃ (a : ℚ) (y mo d : Nat) (c : Category),
      amt = some a ∧ df = some (y, mo, d) ∧
      s.categories.find?
        (fun c => decide (cid = some c.id) && decide (c.user_id = uid)) = some c ∧
      (createExpense s uid cid amt df desc).state.expenses =
        s.expenses ++ [⟨uid, c.id, ⟨y, mo, d⟩, a, desc⟩] ∧
      (createExpense s uid cid amt df desc).state.budgets = s.budgets ∧
      (createExpense s uid cid amt df desc).msgs =
        (match s.budgets.find? (budgetKeyMatch uid c.id (Date.firstOfMonth ⟨y, mo, d⟩)) with
          | none => []
          | some b =>
            statusAlerts (budgetStatus
              (monthlySpend (s.expenses ++ [⟨uid, c.id, ⟨y, mo, d⟩, a, desc⟩]) uid
                (some c.id) (Date.firstOfMonth ⟨y, mo, d⟩)) b.amount)) ++
          [.expenseRecorded] := by
  cases amt with
  | none => simp [createExpense] at hok
  | some a =>
    cases df with
    | none =>
      simp only [createExpense] at hok
      split_ifs at hok <;> simp at hok
    | some t =>
      obtain ⟨y, mo, d⟩ := t
      simp only [createExpense] at hok
      by_cases ha : a ≤ 0
      · rw [if_pos ha] at hok
        simp at hok
      · rw [if_neg ha] at hok
        by_cases hv : isValidDate y mo d = true
        · rw [if_pos hv] at hok
          cases hf : s.categories.find?
              (fun c => decide (cid = some c.id) && decide (c.user_id = uid)) with
          | none => rw [hf] at hok; simp at hok
          | some c =>
            refine ⟨a, y, mo, d, c, rfl, rfl, rfl, ?_, ?_, ?_⟩
            · simp only [createExpense]
              rw [if_neg ha, if_pos hv]
              simp only [hf]
            · simp only [createExpense]
              rw [if_neg ha, if_pos hv]
              simp only [hf]
            · simp only [createExpense]
              rw [if_neg ha, if_pos hv]
              simp only [hf]
              cases hb : s.budgets.find?
                  (budgetKeyMatch uid c.id (Date.firstOfMonth ⟨y, mo, d⟩)) with
              | none => rfl
              | some b =>
                exact congrArg (fun l => l ++ [Msg.expenseRecorded])
                  (alerts_eq_statusAlerts _ _)
        · rw [if_neg hv] at hok
          simp at hok

/-- Witness for C7: spending 95 against a 100 budget reports NEAR_LIMIT. -/
theorem C7_success_persists_and_reports_witness :
    ∃ (a : ℚ) (y mo d : Nat) (c : Category),
      (some 95 : Option ℚ) = some a ∧
      (some (2024, 5, 10) : Option (Nat × Nat × Nat)) = some (y, mo, d) ∧
      (⟨[⟨1, "A", none⟩], [⟨7, "Food", 1⟩], [⟨1, 7, ⟨2024, 5, 1⟩, 100⟩], []⟩ :
          AppState).categories.find?
        (fun c => decide ((some 7 : Option Nat) = some c.id) && decide (c.user_id = 1)) =
          some c ∧
      (createExpense ⟨[⟨1, "A", none⟩], [⟨7, "Food", 1⟩], [⟨1, 7, ⟨2024, 5, 1⟩, 100⟩], []⟩
          1 (some 7) (some 95) (some (2024, 5, 10)) none).state.expenses =
        (⟨[⟨1, "A", none⟩], [⟨7, "Food", 1⟩], [⟨1, 7, ⟨2024, 5, 1⟩, 100⟩], []⟩ :
          AppState).expenses ++ [⟨1, c.id, ⟨y, mo, d⟩, a, none⟩] ∧
      (createExpense ⟨[⟨1, "A", none⟩], [⟨7, "Food", 1⟩], [⟨1, 7, ⟨2024, 5, 1⟩, 100⟩], []⟩
          1 (some 7) (some 95) (some (2024, 5, 10)) none).state.budgets =
        (⟨[⟨1, "A", none⟩], [⟨7, "Food", 1⟩], [⟨1, 7, ⟨2024, 5, 1⟩, 100⟩], []⟩ :
          AppState).budgets ∧
      (createExpense ⟨[⟨1, "A", none⟩], [⟨7, "Food", 1⟩], [⟨1, 7, ⟨2024, 5, 1⟩, 100⟩], []⟩
          1 (some 7) (some 95) (some (2024, 5, 10)) none).msgs =
        (match (⟨[⟨1, "A", none⟩], [⟨7, "Food", 1⟩], [⟨1, 7, ⟨2024, 5, 1⟩, 100⟩], []⟩ :
            AppState).budgets.find?
            (budgetKeyMatch 1 c.id (Date.firstOfMonth ⟨y, mo, d⟩)) with
          | none => []
          | some b =>
            statusAlerts (budgetStatus
              (monthlySpend
                ((⟨[⟨1, "A", none⟩], [⟨7, "Food", 1⟩], [⟨1, 7, ⟨2024, 5, 1⟩, 100⟩], []⟩ :
                  AppState).expenses ++ [⟨1, c.id, ⟨y, mo, d⟩, a, none⟩]) 1
                (some c.id) (Date.firstOfMonth ⟨y, mo, d⟩)) b.amount)) ++
          [.expenseRecorded] :=
  C7_success_persists_and_reports
    ⟨[⟨1, "A", none⟩], [⟨7, "Food", 1⟩], [⟨1, 7, ⟨2024, 5, 1⟩, 100⟩], []⟩
    1 (some 7) (some 95) (some (2024, 5, 10)) none (by decide)

theorem nodupKeys_cons {α : Type} (c0 : Nat) (inp : α) (rest : List (Nat × α))
    (hnd : (((c0, inp) :: rest).map Prod.fst).Nodup) :
    c0 ∉ rest.map Prod.fst ∧ (rest.map Prod.fst).Nodup := by
  rw [List.map_cons] at hnd
  exact ⟨(List.nodup_cons.mp hnd).1, (List.nodup_cons.mp hnd).2⟩

theorem filter_upsert_ne (u c : Nat) (mm : Date) (a : ℚ) (u' c' : Nat)
    (m' : Date) (hne : ¬(u = u' ∧ c = c' ∧ mm = m')) (bs : List Budget) :
    (upsertBudget u c mm a bs).filter (budgetKeyMatch u' c' m') =
      bs.filter (budgetKeyMatch u' c' m') := by
  induction bs with
  | nil =>
    have hfresh : budgetKeyMatch u' c' m' ⟨u, c, mm, a⟩ = false := by
      simp [budgetKeyMatch]
      exact fun h1 h2 h3 => hne ⟨h1, h2, h3⟩
    simp [upsertBudget, List.filter_cons, hfresh]
  | cons b rest ih =>
    unfold upsertBudget
    split_ifs with hb
    · have hb' : budgetKeyMatch u' c' m' b = false := by
        by_cases hq : budgetKeyMatch u' c' m' b = true
        · obtain ⟨e1, e2, e3⟩ := (budgetKeyMatch_iff u c mm b).mp hb
          obtain ⟨f1, f2, f3⟩ := (budgetKeyMatch_iff u' c' m' b).mp hq
          exact absurd ⟨e1.symm.trans f1, e2.symm.trans f2, e3.symm.trans f3⟩ hne
        · simpa using hq
      simp [List.filter_cons, budgetKeyMatch_amount, hb']
    · simp [List.filter_cons, ih]

theorem processBudgetForm_frame (uid : Nat) (m : Date) :
    ∀ (items : List (Nat × FieldInput)) (bs : List Budget) (cid : Nat),
      cid ∉ items.map Prod.fst →
      (processBudgetForm uid m items bs).1.filter (budgetKeyMatch uid cid m) =
        bs.filter (budgetKeyMatch uid cid m) := by
  intro items
  induction items with
  | nil => intro bs cid _; rfl
  | cons it rest ih =>
    obtain ⟨c0, inp⟩ := it
    intro bs cid hcid
    have hne0 : c0 ≠ cid := fun h => hcid (by simp [h])
    have hrest : cid ∉ rest.map Prod.fst := fun h => hcid (by simp [h])
    cases inp with
    | blank =>
      simp only [processBudgetForm]
      exact ih bs cid hrest
    | malformed =>
      simp only [processBudgetForm]
      exact ih bs cid hrest
    | amount q0 =>
      simp only [processBudgetForm]
      by_cases hq0 : q0 < 0
      · rw [if_pos hq0]
        exact ih bs cid hrest
      · rw [if_neg hq0]
        rw [ih (upsertBudget uid c0 m q0 bs) cid hrest]
        exact filter_upsert_ne uid c0 m q0 uid cid m (fun hk => hne0 hk.2.1) bs

theorem processBudgetForm_commits (uid : Nat) (m : Date) :
    ∀ (items : List (Nat × FieldInput)) (bs : List Budget) (cid : Nat) (q : ℚ),
      (items.map Prod.fst).Nodup → (cid, FieldInput.amount q) ∈ items → 0 ≤ q →
      countKey uid cid m bs ≤ 1 →
      (processBudgetForm uid m items bs).1.filter (budgetKeyMatch uid cid m) =
        [⟨uid, cid, m, q⟩] := by
  intro items
  induction items with
  | nil => intro bs cid q _ hmem; cases hmem
  | cons it rest ih =>
    obtain ⟨c0, inp⟩ := it
    intro bs cid q hnd hmem hq hcnt
    have hnd' : (rest.map Prod.fst).Nodup := (nodupKeys_cons _ _ rest hnd).2
    rcases List.mem_cons.mp hmem with heq | htail
    · obtain ⟨rfl, rfl⟩ : cid = c0 ∧ FieldInput.amount q = inp := by
        simpa [Prod.ext_iff] using heq
      have hnotin : cid ∉ rest.map Prod.fst := (nodupKeys_cons _ _ rest hnd).1
      simp only [processBudgetForm]
      rw [if_neg (not_lt.mpr hq)]
      rw [processBudgetForm_frame uid m rest _ cid hnotin]
      exact filter_upsert_eq uid cid m q bs hcnt
    · have hne0 : c0 ≠ cid := by
        intro h
        subst h
        exact (nodupKeys_cons _ _ rest hnd).1 (List.mem_map_of_mem Prod.fst htail)
      cases inp with
      | blank =>
        simp only [processBudgetForm]
        exact ih bs cid q hnd' htail hq hcnt
      | malformed =>
        simp only [processBudgetForm]
        exact ih bs cid q hnd' htail hq hcnt
      | amount q0 =>
        simp only [processBudgetForm]
        by_cases hq0 : q0 < 0
        · rw [if_pos hq0]
          exact ih bs cid q hnd' htail hq hcnt
        · rw [if_neg hq0]
          refine ih _ cid q hnd' htail hq ?_
          rw [countKey_upsert_ne uid c0 m q0 uid cid m (fun hk => hne0 hk.2.1) bs]
          exact hcnt

theorem processBudgetForm_errors (uid : Nat) (m : Date) :
    ∀ (items : List (Nat × FieldInput)) (bs : List Budget) (cid : Nat),
      (∃ inp, (cid, inp) ∈ items ∧
        (inp = FieldInput.malformed ∨ ∃ q : ℚ, inp = .amount q ∧ q < 0)) →
      cid ∈ (processBudgetForm uid m items bs).2 := by
  intro items
  induction items with
  | nil =>
    rintro bs cid ⟨inp, hmem, -⟩
    cases hmem
  | cons it rest ih =>
    obtain ⟨c0, inp0⟩ := it
    rintro bs cid ⟨inp, hmem, hbad⟩
    rcases List.mem_cons.mp hmem with heq | htail
    · obtain ⟨rfl, rfl⟩ : cid = c0 ∧ inp = inp0 := by
        simpa [Prod.ext_iff] using heq
      rcases hbad with rfl | ⟨q, rfl, hq⟩
      · simp only [processBudgetForm]
        exact List.mem_cons_self _ _
      · simp only [processBudgetForm]
        rw [if_pos hq]
        exact List.mem_cons_self _ _
    · cases inp0 with
      | blank =>
        simp only [processBudgetForm]
        exact ih bs cid ⟨inp, htail, hbad⟩
      | malformed =>
        simp only [processBudgetForm]
        exact List.mem_cons_of_mem _ (ih bs cid ⟨inp, htail, hbad⟩)
      | amount q0 =>
        simp only [processBudgetForm]
        by_cases hq0 : q0 < 0
        · rw [if_pos hq0]
          exact List.mem_cons_of_mem _ (ih bs cid ⟨inp, htail, hbad⟩)
        · rw [if_neg hq0]
          exact ih _ cid ⟨inp, htail, hbad⟩

theorem processBudgetForm_skips (uid : Nat) (m : Date) :
    ∀ (items : List (Nat × FieldInput)) (bs : List Budget) (cid : Nat)
      (inp : FieldInput),
      (items.map Prod.fst).Nodup → (cid, inp) ∈ items →
      (inp = .blank ∨ inp = .malformed ∨ ∃ q : ℚ, inp = .amount q ∧ q < 0) →
      (processBudgetForm uid m items bs).1.filter (budgetKeyMatch uid cid m) =
        bs.filter (budgetKeyMatch uid cid m) := by
  intro items
  induction items with
  | nil => intro bs cid inp _ hmem; cases hmem
  | cons it rest ih =>
    obtain ⟨c0, inp0⟩ := it
    intro bs cid inp hnd hmem hbad
    have hnd' : (rest.map Prod.fst).Nodup := (nodupKeys_cons _ _ rest hnd).2
    rcases List.mem_cons.mp hmem with heq | htail
    · obtain ⟨rfl, rfl⟩ : cid = c0 ∧ inp = inp0 := by
        simpa [Prod.ext_iff] using heq
      have hnotin : cid ∉ rest.map Prod.fst := (nodupKeys_cons _ _ rest hnd).1
      rcases hbad with rfl | rfl | ⟨q, rfl, hq⟩
      · simp only [processBudgetForm]
        exact processBudgetForm_frame uid m rest bs cid hnotin
      · simp only [processBudgetForm]
        exact processBudgetForm_frame uid m rest bs cid hnotin
      · simp only [processBudgetForm]
        rw [if_pos hq]
        exact processBudgetForm_frame uid m rest bs cid hnotin
    · have hne0 : c0 ≠ cid := by
        intro h
        subst h
        exact (nodupKeys_cons _ _ rest hnd).1 (List.mem_map_of_mem Prod.fst htail)
      cases inp0 with
      | blank =>
        simp only [processBudgetForm]
        exact ih bs cid inp hnd' htail hbad
      | malformed =>
        simp only [processBudgetForm]
        exact ih bs cid inp hnd' htail hbad
      | amount q0 =>
        simp only [processBudgetForm]
        by_cases hq0 : q0 < 0
        · rw [if_pos hq0]
          exact ih bs cid inp hnd' htail hbad
        · rw [if_neg hq0]
          rw [ih _ cid inp hnd' htail hbad]
          exact filter_upsert_ne uid c0 m q0 uid cid m (fun hk => hne0 hk.2.1) bs

/-- C8: in a batched budget submission over distinct categories, every
malformed or negative amount gets a per-category validation error and leaves
that category's budget rows untouched, while every well-formed non-negative
amount in the same batch is still committed (updated or inserted, ending up
as the single stored row for its triple). -/
theorem C8_budget_batch_errors (uid : Nat) (m : Date)
    (items : List (Nat × FieldInput)) (bs : List Budget)
    (hnd : (items.map Prod.fst).Nodup) :
    (∀ cid inp, (cid, inp) ∈ items →
      (inp = FieldInput.malformed ∨ ∃ q : ℚ, inp = .amount q ∧ q < 0) →
      cid ∈ (processBudgetForm uid m items bs).2 ∧
      (processBudgetForm uid m items bs).1.filter (budgetKeyMatch uid cid m) =
        bs.filter (budgetKeyMatch uid cid m)) ∧
    (∀ cid q, (cid, FieldInput.amount q) ∈ items → 0 ≤ q →
      countKey uid cid m bs ≤ 1 →
      (processBudgetForm uid m items bs).1.filter (budgetKeyMatch uid cid m) =
        [⟨uid, cid, m, q⟩]) := by
  constructor
  · intro cid inp hmem hbad
    exact ⟨processBudgetForm_errors uid m items bs cid ⟨inp, hmem, hbad⟩,
      processBudgetForm_skips uid m items bs cid inp hnd hmem (Or.inr hbad)⟩
  · intro cid q hmem hq hcnt
    exact processBudgetForm_commits uid m items bs cid q hnd hmem hq hcnt

/-- Witness for C8: a batch with one good, one malformed, one negative field
flags the malformed category and still commits the good one. -/
theorem C8_budget_batch_errors_witness :
    (2 ∈ (processBudgetForm 9 ⟨2024, 6, 1⟩
        [(1, .amount 50), (2, .malformed), (3, .amount (-5))] []).2 ∧
      (processBudgetForm 9 ⟨2024, 6, 1⟩
          [(1, .amount 50), (2, .malformed), (3, .amount (-5))] []).1.filter
        (budgetKeyMatch 9 2 ⟨2024, 6, 1⟩) =
        List.filter (budgetKeyMatch 9 2 ⟨2024, 6, 1⟩) []) ∧
    (processBudgetForm 9 ⟨2024, 6, 1⟩
        [(1, .amount 50), (2, .malformed), (3, .amount (-5))] []).1.filter
      (budgetKeyMatch 9 1 ⟨2024, 6, 1⟩) = [⟨9, 1, ⟨2024, 6, 1⟩, 50⟩] :=
  ⟨(C8_budget_batch_errors 9 ⟨2024, 6, 1⟩
      [(1, .amount 50), (2, .malformed), (3, .amount (-5))] [] (by simp)).1
      2 .malformed (by simp) (Or.inl rfl),
   (C8_budget_batch_errors 9 ⟨2024, 6, 1⟩
      [(1, .amount 50), (2, .malformed), (3, .amount (-5))] [] (by simp)).2
      1 50 (by simp) (by norm_num) (by simp [countKey])⟩

theorem date_le_trans {a b c : Date} (h1 : Date.le a b) (h2 : Date.le b c) :
    Date.le a c := by
  unfold Date.le at *
  omega

theorem date_le_total (a b : Date) : Date.le a b ∨ Date.le b a := by
  unfold Date.le
  omega

/-- C9: the expense listing holds at most 50 rows, sorted by date descending,
all belonging to the user; together with the omitted rows it is a permutation
of all the user's expenses, and every omitted row's date is no later than
every listed row's date. -/
theorem C9_list_expenses_limit (expenses : List Expense) (uid : Nat) :
    (listExpenses expenses uid).length ≤ 50 ∧
    (listExpenses expenses uid).Pairwise (fun a b => b.date ≤ a.date) ∧
    (∀ e ∈ listExpenses expenses uid, e.user_id = uid) ∧
    ∃ rest : List Expense,
      (listExpenses expenses uid ++ rest).Perm
        (expenses.filter fun e => decide (e.user_id = uid)) ∧
      ∀ y ∈ rest, ∀ x ∈ listExpenses expenses uid, y.date ≤ x.date := by
  have htrans : ∀ a b c : Expense, decide (b.date ≤ a.date) = true →
      decide (c.date ≤ b.date) = true → decide (c.date ≤ a.date) = true := by
    intro a b c h1 h2
    rw [decide_eq_true_eq] at *
    exact date_le_trans h2 h1
  have htotal : ∀ a b : Expense,
      (decide (b.date ≤ a.date) || decide (a.date ≤ b.date)) = true := by
    intro a b
    rw [Bool.or_eq_true, decide_eq_true_eq, decide_eq_true_eq]
    rcases date_le_total a.date b.date with h | h
    · exact Or.inr h
    · exact Or.inl h
  have hsorted := List.sorted_mergeSort htrans htotal
    (expenses.filter fun e => decide (e.user_id = uid))
  simp only [listExpenses]
  refine ⟨List.length_take_le _ _, ?_, ?_, ?_⟩
  · exact List.Pairwise.imp (fun h => of_decide_eq_true h)
      (List.Pairwise.sublist (List.take_sublist _ _) hsorted)
  · intro e he
    have h1 : e ∈ expenses.filter fun e => decide (e.user_id = uid) := by
      have := List.mem_of_mem_take he
      rwa [List.mem_mergeSort] at this
    exact of_decide_eq_true (List.mem_filter.mp h1).2
  · refine ⟨((expenses.filter fun e => decide (e.user_id = uid)).mergeSort
        fun a b => decide (b.date ≤ a.date)).drop 50, ?_, ?_⟩
    · rw [List.take_append_drop]
      exact List.mergeSort_perm _ _
    · intro y hy x hx
      have hsplit := hsorted
      rw [← List.take_append_drop 50 ((expenses.filter
        fun e => decide (e.user_id = uid)).mergeSort
        fun a b => decide (b.date ≤ a.date))] at hsplit
      exact of_decide_eq_true ((List.pairwise_append.mp hsplit).2.2 x hx y hy)

/-- C10: a `month` query parameter that does not parse as `"YYYY-MM"` makes
both the monthly report and the budgets GET page fall back silently to the
first day of the current month, with no flashed message. -/
theorem C10_bad_month_falls_back (str : String) (today : Date)
    (h : parseMonth str = none) :
    monthlyReportMonth (some str) today = (Date.firstOfMonth today, []) ∧
    budgetsPageMonth (some str) today = (Date.firstOfMonth today, []) := by
  constructor
  · simp only [monthlyReportMonth]
    split_ifs with he
    · rfl
    · rw [h]
  · simp only [budgetsPageMonth]
    split_ifs with he
    · rfl
    · rw [h]

/-- Witness for C10 on the unparseable string "oops". -/
theorem C10_bad_month_falls_back_witness :
    parseMonth "oops" = none ∧
    monthlyReportMonth (some "oops") ⟨2024, 5, 17⟩ =
      (Date.firstOfMonth ⟨2024, 5, 17⟩, []) ∧
    budgetsPageMonth (some "oops") ⟨2024, 5, 17⟩ =
      (Date.firstOfMonth ⟨2024, 5, 17⟩, []) :=
  ⟨by decide,
   (C10_bad_month_falls_back "oops" ⟨2024, 5, 17⟩ (by decide)).1,
   (C10_bad_month_falls_back "oops" ⟨2024, 5, 17⟩ (by decide)).2⟩
